import Mathlib

/-!
Verification of the pantainos-memory MCP gateway (src/mcp of the repository)
against its natural-language specification.

The Python source is shallowly embedded: each renderer in
src/mcp/formatters.py becomes a pure Lean function over an explicit payload
type (a JSON object with possibly-missing keys is modelled by a structure of
Option fields, with the same defaults the Python code supplies through
dict.get), the notification injector of src/mcp/notifications.py becomes a
function of the poll outcome (an Except value), and the request-body shaping
of src/mcp/user/server.py and src/mcp/admin/server.py becomes list-of-pairs
manipulation.  Python numbers are idealised as rationals; Python round is
round-half-to-even, modelled exactly by pyround below.  The recursive
derivation-graph walk of fmt_reference is embedded with an explicit fuel
parameter; the termination theorem shows the result is independent of the
fuel once the fuel reaches an explicit bound computed from the edge list.
-/

/-- Python round() on a rational: round half to even (banker's rounding).
Used by formatters.py through round(...) calls. -/
def pyround (q : ℚ) : ℤ :=
  let f := ⌊q⌋
  let r := q - (f : ℚ)
  if r < 1/2 then f
  else if 1/2 < r then f + 1
  else if f % 2 = 0 then f else f + 1

/-- Python str.rstrip() restricted to ASCII/unicode whitespace: drop trailing
whitespace characters. -/
def pyRstrip (s : String) : String :=
  ⟨(s.data.reverse.dropWhile Char.isWhitespace).reverse⟩

/-- Truthiness of an optional string, as Python `if m.get(k):` — None and the
empty string are falsy. -/
def truthyStr (o : Option String) : Bool :=
  match o with
  | none => false
  | some s => !(s == "")

/-- Truthiness of an optional list, as Python — None and [] are falsy. -/
def truthyList {α : Type} (o : Option (List α)) : Bool :=
  match o with
  | none => false
  | some l => !l.isEmpty

/-- Truthiness of an optional number, as Python — None and 0 are falsy. -/
def truthyNum (o : Option ℚ) : Bool :=
  match o with
  | none => false
  | some q => !(q == 0)

/-- From formatters.py line 38: `_pct`.  A value at most 1 is treated as a
fraction and scaled by 100 before rounding; a value above 1 is only rounded. -/
def _pct (value : ℚ) : ℤ :=
  if value ≤ 1 then pyround (value * 100) else pyround value

/-- From formatters.py line 14: `_outcome_icon`. -/
def _outcome_icon (state : Option String) (outcome : Option String) : String :=
  if state == some "resolved" then
    if outcome == some "incorrect" then " ❌"
    else if outcome == some "superseded" then " ⏰"
    else if outcome == some "correct" then " ✅"
    else if outcome == some "voided" then " 🚫"
    else if state == some "violated" then " ⚠️"
    else if state == some "confirmed" then " ✓"
    else ""
  else if state == some "violated" then " ⚠️"
  else if state == some "confirmed" then " ✓"
  else ""

/-- Millisecond normalisation shared by `_resolves_by` (formatters.py line 34)
and `_ts` (line 360): `ms = ts * 1000 if ts < 1e12 else ts`.  Timestamps are
modelled at integer precision (the Python code also accepts floats; the
magnitude heuristic and the rendered calendar fields only depend on floors,
so integer inputs fully exercise the rule). -/
def toMillis (ts : ℤ) : ℤ :=
  if ts < 10 ^ 12 then ts * 1000 else ts

/-- Proleptic-Gregorian civil date from days since the Unix epoch (the
computation performed by datetime.fromtimestamp(..., tz=utc)).  Uses
truncation integer division exactly as the standard era-based algorithm. -/
def civilFromDays (z0 : ℤ) : ℤ × ℤ × ℤ :=
  let z := z0 + 719468
  let era := (if 0 ≤ z then z else z - 146096) / 146097
  let doe := z - era * 146097
  let yoe := (doe - doe / 1460 + doe / 36524 - doe / 146096) / 365
  let y := yoe + era * 400
  let doy := doe - (365 * yoe + yoe / 4 - yoe / 100)
  let mp := (5 * doy + 2) / 153
  let d := doy - (153 * mp + 2) / 5 + 1
  let m := if mp < 10 then mp + 3 else mp - 9
  (if m ≤ 2 then y + 1 else y, m, d)

/-- Zero-pad to two digits, as strftime %m, %d, %H, %M. -/
def pad2 (n : ℤ) : String :=
  if 0 ≤ n ∧ n < 10 then "0" ++ toString n else toString n

/-- Zero-pad to four digits, as strftime %Y. -/
def pad4 (n : ℤ) : String :=
  if 0 ≤ n ∧ n < 10 then "000" ++ toString n
  else if 0 ≤ n ∧ n < 100 then "00" ++ toString n
  else if 0 ≤ n ∧ n < 1000 then "0" ++ toString n
  else toString n

/-- From formatters.py line 31: `_resolves_by`.  None renders "no deadline";
otherwise the magnitude heuristic picks seconds or milliseconds and the UTC
date is rendered as %Y-%m-%d. -/
def _resolves_by (ts : Option ℤ) : String :=
  match ts with
  | none => "no deadline"
  | some t =>
    let ms := toMillis t
    let days := Int.fdiv ms 86400000
    let ymd := civilFromDays days
    pad4 ymd.1 ++ "-" ++ pad2 ymd.2.1 ++ "-" ++ pad2 ymd.2.2

/-- From formatters.py line 356: `_ts`.  Renders a UTC timestamp as
"%m-%d %H:%M" with the same magnitude heuristic as `_resolves_by`.  The
epoch-day count floor(ms / 1000 / 86400) equals fdiv ms 86400000, and the
whole-second count floor(ms / 1000) equals fdiv ms 1000. -/
def _ts (value : Option ℤ) : String :=
  match value with
  | none => "??-?? ??:??"
  | some t =>
    let ms := toMillis t
    let days := Int.fdiv ms 86400000
    let ymd := civilFromDays days
    let sod := Int.fdiv ms 1000 - days * 86400
    pad2 ymd.2.1 ++ "-" ++ pad2 ymd.2.2 ++ " " ++ pad2 (sod / 3600) ++ ":" ++
      pad2 (sod % 3600 / 60)

/- ── Derivation-graph renderer (formatters.py, fmt_reference, lines 166-211) ── -/

/-- An edge payload: `e.get("source_id", "")`, `e.get("target_id", "")`,
`e.get("edge_type", "derives_from")` — a missing key is the default string. -/
structure Edge where
  source_id : String
  target_id : String
  edge_type : String
deriving DecidableEq

/-- A node payload as used by fmt_reference: `n.get("id", "")` and
`n.get("content", "")` — a missing key is the empty string. -/
structure GNode where
  id : String
  content : String
deriving DecidableEq

/-- The payload of the reference tool: `data.get("nodes", [])`,
`data.get("edges", [])`, `data.get("root", "?")`. -/
structure RefData where
  nodes : List GNode
  edges : List Edge
  root : String
deriving DecidableEq

/-- The children adjacency of formatters.py lines 175-182 restricted to one
source id: `children[nid] = [(target_id, edge_type), ...]` in edge-list
order (built there by setdefault/append). -/
def childrenOf (edges : List Edge) (nid : String) : List (String × String) :=
  (edges.filter (fun e => e.source_id == nid)).map (fun e => (e.target_id, e.edge_type))

/-- The parents adjacency of formatters.py lines 175-182 restricted to one
target id. -/
def parentsOf (edges : List Edge) (nid : String) : List (String × String) :=
  (edges.filter (fun e => e.target_id == nid)).map (fun e => (e.source_id, e.edge_type))

/-- All target ids of the edge list; every id the descendant walk can add to
the visited set lives here. -/
def targets (edges : List Edge) : List String :=
  edges.map (fun e => e.target_id)

/-- The number of target ids not yet in the visited set — the quantity the
descendant walk strictly decreases every time it descends. -/
def unvisitedCount (edges : List Edge) (v : List String) : Nat :=
  ((targets edges).filter (fun x => !v.contains x)).length

/-- The node map of formatters.py line 184: `{n.get("id",""): n for n in
nodes}` — on duplicate ids the later node wins, hence getLast?. -/
def nodeLookup (nodes : List GNode) (nid : String) : Option GNode :=
  (nodes.filter (fun n => n.id == nid)).getLast?

/-- From formatters.py line 186: `_label` — `[id] content[:60]`, with empty
content when the id is absent from the node map. -/
def _label (nodes : List GNode) (nid : String) : String :=
  "[" ++ nid ++ "] " ++ ((nodeLookup nodes nid).map (fun n => n.content.take 60)).getD ""

/-- `'  ' * indent` of formatters.py line 200. -/
def indentSpaces (n : Nat) : String :=
  String.join (List.replicate n "  ")

/-- The recursive descendant walk `_walk_down` of formatters.py lines
196-203, embedded with an explicit fuel parameter (the Python recursion
carries none; walkLoop_stable below shows the fuel is irrelevant once large
enough, which is exactly the claim that the Python recursion terminates).
The argument cs is the remaining children list of the node being expanded;
the result is the final visited set together with the render events
(indent, child id) in output order.  Each step consumes one unit of fuel. -/
def walkLoop (edges : List Edge) : Nat → List (String × String) → Nat → List String →
    List String × List (Nat × String)
  | 0, _, _, visited => (visited, [])
  | _ + 1, [], _, visited => (visited, [])
  | fuel + 1, (child, _) :: rest, indent, visited =>
    if visited.contains child then
      walkLoop edges fuel rest indent visited
    else
      let r2 := walkLoop edges fuel (childrenOf edges child) (indent + 1) (child :: visited)
      let r3 := walkLoop edges fuel rest indent r2.1
      (r3.1, (indent, child) :: r2.2 ++ r3.2)

/-- `_walk_down(nid, indent)` with the shared visited set made explicit:
iterate over `children.get(nid, [])`. -/
def _walk_down (edges : List Edge) (fuel : Nat) (nid : String) (indent : Nat)
    (visited : List String) : List String × List (Nat × String) :=
  walkLoop edges fuel (childrenOf edges nid) indent visited

/-- The ancestor loop of formatters.py lines 206-209: one hop over the direct
parents of the root, skipping already-visited ids, extending the same
visited set.  Returns the final visited set and the rendered parent ids. -/
def ancLoop : List (String × String) → List String → List String × List String
  | [], visited => (visited, [])
  | (p, _) :: rest, visited =>
    if visited.contains p then ancLoop rest visited
    else
      let r := ancLoop rest (p :: visited)
      (r.1, p :: r.2)

/-- Fuel that always suffices for the whole descendant walk:
(edges + 1) squared steps. -/
def defaultFuel (edges : List Edge) : Nat :=
  (edges.length + 1) * (edges.length + 1)

/-- The descendant walk as fmt_reference performs it: visited seeded with
the root (line 194), `_walk_down(root_id, 1)` (line 203). -/
def refDown (data : RefData) (fuel : Nat) : List String × List (Nat × String) :=
  _walk_down data.edges fuel data.root 1 [data.root]

/-- The visited set after the full descendant walk. -/
def refVisitedDown (data : RefData) : List String :=
  (refDown data (defaultFuel data.edges)).1

/-- The ids rendered by the ancestor loop (prefixed "  < " in the output). -/
def refAncestorIds (data : RefData) : List String :=
  (ancLoop (parentsOf data.edges data.root) (refVisitedDown data)).2

/-- From formatters.py line 166: `fmt_reference`, with the walk fuel exposed.
`fmt_reference` below fixes the fuel at defaultFuel. -/
def fmt_reference_fuel (fuel : Nat) (data : RefData) : String :=
  if data.nodes.isEmpty then "No graph data for [" ++ data.root ++ "]"
  else
    let down := _walk_down data.edges fuel data.root 1 [data.root]
    let anc := ancLoop (parentsOf data.edges data.root) down.1
    String.intercalate "\n"
      (_label data.nodes data.root ::
        (down.2.map (fun ev => indentSpaces ev.1 ++ "> " ++ _label data.nodes ev.2) ++
          anc.2.map (fun p => "  < " ++ _label data.nodes p)))

/-- `fmt_reference` of formatters.py lines 166-211. -/
def fmt_reference (data : RefData) : String :=
  fmt_reference_fuel (defaultFuel data.edges) data

/-- The node id of every rendered line of fmt_reference, in output order:
the root label line, then one id per descendant line, then one id per
ancestor line. -/
def fmt_reference_ids (data : RefData) : List String :=
  data.root :: (refDown data (defaultFuel data.edges)).2.map Prod.snd ++ refAncestorIds data

/- ── fmt_find (formatters.py lines 45-65) ─────────────────────────────────── -/

/-- The memory sub-object of one find result: `r.get("memory", {})` with the
per-field defaults applied at use sites (`m.get("id", "?")`,
`m.get("content", "")`, `m.get("state")`, `m.get("outcome")`). -/
structure FindMem where
  id : Option String
  content : Option String
  state : Option String
  outcome : Option String
deriving DecidableEq

/-- One entry of `data["results"]`: similarity/confidence default to 0 when
missing (`r.get("similarity", 0)`), surprise stays optional. -/
structure FindItem where
  memory : FindMem
  similarity : ℚ
  confidence : ℚ
  surprise : Option ℚ
deriving DecidableEq

/-- The find payload: `data.get("results", [])` (a missing key is the empty
list) and `data.get("query", "")`. -/
structure FindData where
  results : List FindItem
  query : String
deriving DecidableEq

/-- From formatters.py line 45: `fmt_find`. -/
def fmt_find (data : FindData) : String :=
  if data.results.isEmpty then "No results for \"" ++ data.query ++ "\""
  else
    let lines := (data.results.enumFrom 1).map (fun ir =>
      let m := ir.2.memory
      let content := (m.content.getD "").take 80
      let sim := _pct ir.2.similarity
      let conf := _pct ir.2.confidence
      let icon := _outcome_icon m.state m.outcome
      let surp_str :=
        match ir.2.surprise with
        | some s => " surp:" ++ toString (_pct s) ++ "%"
        | none => ""
      toString ir.1 ++ ". [" ++ m.id.getD "?" ++ "] " ++ content ++ icon ++
        "\n   sim:" ++ toString sim ++ "% conf:" ++ toString conf ++ "%" ++ surp_str)
    "Found " ++ toString data.results.length ++ " for \"" ++ data.query ++ "\":\n\n" ++
      String.intercalate "\n\n" lines

/- ── fmt_recall (formatters.py lines 68-105) ──────────────────────────────── -/

/-- One violation record: `v.get("condition", "")`, `v.get("obs_id", "?")`. -/
structure Violation where
  condition : Option String
  obs_id : Option String
deriving DecidableEq

/-- One connection record: `c.get("target_id", "?")`. -/
structure Connection where
  target_id : Option String
deriving DecidableEq

/-- The memory payload fmt_recall reads (after `m = data.get("memory",
data)`): every key may be missing.  times_tested/confirmations default to 0,
state to "active"; violations to the empty list.  resolves_by is numeric
here (the Python code only tests its truthiness). -/
structure Memory where
  id : Option String
  content : Option String
  state : Option String
  outcome : Option String
  times_tested : Option ℕ
  confirmations : Option ℕ
  source : Option String
  derived_from : Option (List String)
  resolves_by : Option ℚ
  violations : Option (List Violation)
deriving DecidableEq

/-- The recall payload: the extracted memory object plus
`data.get("connections", [])`. -/
structure RecallData where
  memory : Memory
  connections : Option (List Connection)
deriving DecidableEq

/-- From formatters.py line 68: `fmt_recall`. -/
def fmt_recall (data : RecallData) : String :=
  let m := data.memory
  let state0 := m.state.getD "active"
  let state_label :=
    if state0 == "resolved" && truthyStr m.outcome then "resolved:" ++ m.outcome.getD ""
    else state0
  let tt := m.times_tested.getD 0
  let confs := m.confirmations.getD 0
  let confidence :=
    if 0 < tt then toString (pyround ((confs : ℚ) / (tt : ℚ) * 100)) ++ "%" else "untested"
  let traits :=
    (if truthyStr m.source then ["sourced"] else []) ++
      (if truthyList m.derived_from then ["derived"] else []) ++
        (if truthyNum m.resolves_by then ["time-bound"] else [])
  let trait_label := if traits.isEmpty then "standalone" else String.intercalate ", " traits
  let text1 := "[" ++ m.id.getD "?" ++ "] " ++ m.content.getD "" ++ "\n"
  let text2 := text1 ++ trait_label ++ " | " ++ state_label ++ " | " ++ confidence ++ "\n"
  let text3 := text2 ++ (if truthyStr m.source then "Source: " ++ m.source.getD "" ++ "\n" else "")
  let text4 := text3 ++ String.join ((m.violations.getD []).map (fun v =>
    "Violation: \"" ++ v.condition.getD "" ++ "\" (by " ++ v.obs_id.getD "?" ++ ")\n"))
  let conns := data.connections.getD []
  let text5 := text4 ++
    (if conns.isEmpty then ""
     else "Connections: " ++
       String.intercalate ", " (conns.map (fun c => "[" ++ c.target_id.getD "?" ++ "]")) ++ "\n")
  pyRstrip text5

/-- A recall payload with every key missing — the degraded-rendering probe. -/
def emptyRecallData : RecallData :=
  { memory :=
      { id := none, content := none, state := none, outcome := none,
        times_tested := none, confirmations := none, source := none,
        derived_from := none, resolves_by := none, violations := none },
    connections := none }

/- ── Notification injector (notifications.py, user/server.py) ─────────────── -/

/-- The payload of the notifications/pending poll:
`data.get("notifications", [])`, each item carrying its content string
(notifications.py indexes n["content"] directly). -/
structure NotifData where
  notifications : List String
deriving DecidableEq

/-- From notifications.py line 8: `fetch_and_format`.  The poll outcome is
passed in explicitly: `Except.error` is the client.get call raising (any
exception), `Except.ok` is the parsed JSON payload.  The try/except around
the poll maps every error to None; an empty notification list also yields
None; otherwise the formatted header block is returned. -/
def fetch_and_format (poll : Except String NotifData) : Option String :=
  match poll with
  | Except.error _ => none
  | Except.ok data =>
    if data.notifications.isEmpty then none
    else some (String.intercalate "\n"
      ("=== NOTIFICATIONS ===" :: data.notifications.map (fun c => "- " ++ c) ++ [""]))

/-- From user/server.py line 30: `_with_notifications` — prepend the header
when the poll produced one (a returned header is never the empty string, so
Python's truthiness test coincides with the Option match). -/
def _with_notifications (result : String) (poll : Except String NotifData) : String :=
  match fetch_and_format poll with
  | some header => header ++ result
  | none => result

/- ── Request-body shaping (user/server.py, admin/server.py) ───────────────── -/

/-- A JSON value as sent in a request body. -/
inductive JValue where
  | str (s : String)
  | bool (b : Bool)
  | num (q : ℚ)
  | arr (xs : List String)
deriving DecidableEq

/-- From user/server.py line 38 and admin/server.py line 28: `_body` —
`{k: v for k, v in kwargs.items() if v is not None}`.  The keyword
arguments are an association list of optional values; entries whose value
is None are dropped, the rest keep their value. -/
def _body (kwargs : List (String × Option JValue)) : List (String × JValue) :=
  kwargs.filterMap (fun kv => kv.2.map (fun v => (kv.1, v)))

/-- The declared schema default of queue_purge's dry_run parameter
(admin/server.py line 49). -/
def queue_purge_dry_run_default : Bool := true

/-- The declared schema default of bulk_retract's dry_run parameter
(admin/server.py line 123). -/
def bulk_retract_dry_run_default : Bool := true

/-- The declared schema default of condition_vectors_cleanup's dry_run
parameter (admin/server.py line 80). -/
def condition_vectors_cleanup_dry_run_default : Bool := true

/-- The request body built by queue_purge (admin/server.py lines 52-55). -/
def queue_purge_body (mode : String) (session_id : Option String)
    (older_than_hours : ℚ) (dry_run : Bool) : List (String × JValue) :=
  _body [("mode", some (JValue.str mode)),
         ("session_id", session_id.map JValue.str),
         ("older_than_hours", some (JValue.num older_than_hours)),
         ("dry_run", some (JValue.bool dry_run))]

/-- The request body built by bulk_retract (admin/server.py lines 126-131):
a dict literal, no None-dropping. -/
def bulk_retract_body (memory_id reason : String) (cascade dry_run : Bool) :
    List (String × JValue) :=
  [("memory_id", JValue.str memory_id), ("reason", JValue.str reason),
   ("cascade", JValue.bool cascade), ("dry_run", JValue.bool dry_run)]

/-- The request body built by condition_vectors_cleanup (admin/server.py
line 83). -/
def condition_vectors_cleanup_body (memory_id : Option String) (batch_size : ℕ)
    (dry_run : Bool) : List (String × JValue) :=
  _body [("memory_id", memory_id.map JValue.str),
         ("batch_size", some (JValue.num batch_size)),
         ("dry_run", some (JValue.bool dry_run))]

/-- The request body built by resolve (user/server.py lines 135-138):
`force=force if force else None` — an explicit False becomes None and is
then dropped by _body. -/
def resolve_body (memory_id outcome reason : String) (replaced_by : Option String)
    (force : Bool) : List (String × JValue) :=
  _body [("memory_id", some (JValue.str memory_id)),
         ("outcome", some (JValue.str outcome)),
         ("reason", some (JValue.str reason)),
         ("replaced_by", replaced_by.map JValue.str),
         ("force", if force then some (JValue.bool force) else none)]

/- ── Example payloads used by concrete theorems and witnesses ─────────────── -/

/-- The end-to-end reference scenario of the spec: nodes m1, m2, m3 and
edges m1→m2 (derives_from), m3→m1 (derives_from), root m1. -/
def refExample : RefData :=
  { nodes := [⟨"m1", "alpha"⟩, ⟨"m2", "beta"⟩, ⟨"m3", "gamma"⟩],
    edges := [⟨"m1", "m2", "derives_from"⟩, ⟨"m3", "m1", "derives_from"⟩],
    root := "m1" }

/-- A graph with a cycle back to the root (mutual edges m1→m2 and m2→m1). -/
def refCycleExample : RefData :=
  { nodes := [⟨"m1", "a"⟩, ⟨"m2", "b"⟩],
    edges := [⟨"m1", "m2", "derives_from"⟩, ⟨"m2", "m1", "supersedes"⟩],
    root := "m1" }

/- ═══════════════════════════════ Theorems ═══════════════════════════════ -/

set_option maxRecDepth 8000

theorem contains_false_iff (v : List String) (c : String) : v.contains c = false ↔ c ∉ v := by
  simp [List.contains]

theorem contains_true_iff (v : List String) (c : String) : v.contains c = true ↔ c ∈ v := by
  simp [List.contains]

theorem unvisitedCount_le (edges : List Edge) (v : List String) :
    unvisitedCount edges v ≤ edges.length := by
  calc unvisitedCount edges v ≤ (targets edges).length := List.length_filter_le _ _
    _ = edges.length := by simp [targets]

theorem unvisitedCount_anti {edges : List Edge} {v w : List String} (h : v ⊆ w) :
    unvisitedCount edges w ≤ unvisitedCount edges v := by
  apply List.Sublist.length_le
  apply List.monotone_filter_right
  intro a ha
  simp only [Bool.not_eq_true', contains_false_iff] at ha ⊢
  exact fun hav => ha (h hav)

theorem unvisitedCount_cons_lt {edges : List Edge} {v : List String} {c : String}
    (hc : c ∈ targets edges) (hv : c ∉ v) :
    unvisitedCount edges (c :: v) < unvisitedCount edges v := by
  have hsub : List.Sublist ((targets edges).filter (fun x => !(c :: v).contains x))
      ((targets edges).filter (fun x => !v.contains x)) := by
    apply List.monotone_filter_right
    intro a ha
    simp only [Bool.not_eq_true', contains_false_iff, List.mem_cons] at ha ⊢
    exact fun hav => ha (Or.inr hav)
  refine Nat.lt_of_le_of_ne hsub.length_le (fun heq => ?_)
  have hlists := hsub.eq_of_length heq
  have hmem : c ∈ (targets edges).filter (fun x => !v.contains x) := by
    simp only [List.mem_filter, Bool.not_eq_true', contains_false_iff]
    exact ⟨hc, hv⟩
  rw [← hlists] at hmem
  simp [List.mem_filter] at hmem

theorem length_childrenOf_le (edges : List Edge) (nid : String) :
    (childrenOf edges nid).length ≤ edges.length := by
  simp only [childrenOf, List.length_map]
  exact List.length_filter_le _ _

theorem mem_targets_of_childrenOf {edges : List Edge} {nid : String} {p : String × String}
    (hp : p ∈ childrenOf edges nid) : p.1 ∈ targets edges := by
  simp only [childrenOf, List.mem_map, List.mem_filter] at hp
  obtain ⟨e, ⟨he, _⟩, hpe⟩ := hp
  simp only [targets, List.mem_map]
  exact ⟨e, he, by rw [← hpe]⟩

theorem walkLoop_visited_subset (edges : List Edge) :
    ∀ (fuel : Nat) (cs : List (String × String)) (indent : Nat) (v : List String),
      v ⊆ (walkLoop edges fuel cs indent v).1 := by
  intro fuel
  induction fuel with
  | zero => intro cs indent v; simp [walkLoop]
  | succ f ih =>
    intro cs indent v
    match cs with
    | [] => simp [walkLoop]
    | (c, t) :: rest =>
      simp only [walkLoop]
      cases hcv : v.contains c with
      | true => simpa [hcv] using ih rest indent v
      | false =>
        simp only [hcv, Bool.false_eq_true, if_false]
        calc v ⊆ c :: v := List.subset_cons_self _ _
          _ ⊆ (walkLoop edges f (childrenOf edges c) (indent + 1) (c :: v)).1 := ih _ _ _
          _ ⊆ _ := ih _ _ _

theorem walkLoop_stable (edges : List Edge) :
    ∀ (n f₁ f₂ : Nat) (cs : List (String × String)) (indent : Nat) (v : List String),
      f₁ + f₂ ≤ n →
      (∀ p ∈ cs, p.1 ∈ targets edges) →
      unvisitedCount edges v * (edges.length + 1) + cs.length + 1 ≤ f₁ →
      unvisitedCount edges v * (edges.length + 1) + cs.length + 1 ≤ f₂ →
      walkLoop edges f₁ cs indent v = walkLoop edges f₂ cs indent v := by
  intro n
  induction n with
  | zero =>
    intro f₁ f₂ cs indent v hn hcs h₁ h₂
    omega
  | succ n ih =>
    intro f₁ f₂ cs indent v hn hcs h₁ h₂
    cases f₁ with
    | zero => omega
    | succ a =>
      cases f₂ with
      | zero => omega
      | succ b =>
        cases cs with
        | nil => rfl
        | cons head rest =>
          obtain ⟨c, t⟩ := head
          simp only [List.length_cons] at h₁ h₂
          have hct : c ∈ targets edges := hcs (c, t) (List.mem_cons_self _ _)
          have hrest : ∀ p ∈ rest, p.1 ∈ targets edges :=
            fun p hp => hcs p (List.mem_cons_of_mem _ hp)
          simp only [walkLoop]
          cases hcv : v.contains c with
          | true =>
            simp only [hcv, if_true]
            exact ih a b rest indent v (by omega) hrest (by omega) (by omega)
          | false =>
            simp only [hcv, Bool.false_eq_true, if_false]
            have hcnv : c ∉ v := (contains_false_iff v c).mp hcv
            have hu : unvisitedCount edges (c :: v) < unvisitedCount edges v :=
              unvisitedCount_cons_lt hct hcnv
            have hUE : unvisitedCount edges (c :: v) * (edges.length + 1) + (edges.length + 1) ≤
                unvisitedCount edges v * (edges.length + 1) := by
              calc unvisitedCount edges (c :: v) * (edges.length + 1) + (edges.length + 1)
                  = (unvisitedCount edges (c :: v) + 1) * (edges.length + 1) := by ring
                _ ≤ unvisitedCount edges v * (edges.length + 1) :=
                    Nat.mul_le_mul_right _ hu
            have hlch : (childrenOf edges c).length ≤ edges.length :=
              length_childrenOf_le edges c
            have e2 : walkLoop edges a (childrenOf edges c) (indent + 1) (c :: v) =
                walkLoop edges b (childrenOf edges c) (indent + 1) (c :: v) :=
              ih a b _ _ _ (by omega) (fun p hp => mem_targets_of_childrenOf hp)
                (by omega) (by omega)
            have hmono : (c :: v) ⊆
                (walkLoop edges b (childrenOf edges c) (indent + 1) (c :: v)).1 :=
              walkLoop_visited_subset edges b _ _ _
            have hU2 : unvisitedCount edges
                  (walkLoop edges b (childrenOf edges c) (indent + 1) (c :: v)).1 ≤
                unvisitedCount edges (c :: v) := unvisitedCount_anti hmono
            have hU2m : unvisitedCount edges
                  (walkLoop edges b (childrenOf edges c) (indent + 1) (c :: v)).1 *
                  (edges.length + 1) ≤
                unvisitedCount edges (c :: v) * (edges.length + 1) :=
              Nat.mul_le_mul_right _ hU2
            have e3 : walkLoop edges a rest indent
                  (walkLoop edges b (childrenOf edges c) (indent + 1) (c :: v)).1 =
                walkLoop edges b rest indent
                  (walkLoop edges b (childrenOf edges c) (indent + 1) (c :: v)).1 :=
              ih a b _ _ _ (by omega) hrest (by omega) (by omega)
            rw [e2, e3]

theorem walkLoop_ids_inv (edges : List Edge) :
    ∀ (fuel : Nat) (cs : List (String × String)) (indent : Nat) (v : List String),
      (∀ x ∈ (walkLoop edges fuel cs indent v).2.map Prod.snd,
        x ∉ v ∧ x ∈ (walkLoop edges fuel cs indent v).1) ∧
      ((walkLoop edges fuel cs indent v).2.map Prod.snd).Nodup := by
  intro fuel
  induction fuel with
  | zero => intro cs indent v; simp [walkLoop]
  | succ f ih =>
    intro cs indent v
    match cs with
    | [] => simp [walkLoop]
    | (c, t) :: rest =>
      simp only [walkLoop]
      cases hcv : v.contains c with
      | true => simpa [hcv] using ih rest indent v
      | false =>
        simp only [hcv, Bool.false_eq_true, if_false]
        have hcnv : c ∉ v := (contains_false_iff v c).mp hcv
        obtain ⟨h2, nd2⟩ := ih (childrenOf edges c) (indent + 1) (c :: v)
        obtain ⟨h3, nd3⟩ := ih rest indent
          (walkLoop edges f (childrenOf edges c) (indent + 1) (c :: v)).1
        have hm2 : (c :: v) ⊆ (walkLoop edges f (childrenOf edges c) (indent + 1) (c :: v)).1 :=
          walkLoop_visited_subset edges f _ _ _
        have hm3 : (walkLoop edges f (childrenOf edges c) (indent + 1) (c :: v)).1 ⊆
            (walkLoop edges f rest indent
              (walkLoop edges f (childrenOf edges c) (indent + 1) (c :: v)).1).1 :=
          walkLoop_visited_subset edges f _ _ _
        constructor
        · intro x hx
          simp only [List.map_cons, List.map_append, List.mem_cons, List.mem_append] at hx
          rcases hx with (hx | hx) | hx
          · subst hx
            exact ⟨hcnv, hm3 (hm2 (List.mem_cons_self _ _))⟩
          · obtain ⟨hxv, hxin⟩ := h2 x hx
            exact ⟨fun hv => hxv (List.mem_cons_of_mem _ hv), hm3 hxin⟩
          · obtain ⟨hxv, hxin⟩ := h3 x hx
            exact ⟨fun hv => hxv (hm2 (List.mem_cons_of_mem _ hv)), hxin⟩
        · simp only [List.map_cons, List.map_append, List.nodup_cons, List.nodup_append,
            List.mem_append, List.mem_cons]
          refine ⟨⟨?_, nd2⟩, nd3, ?_⟩
          · intro hc2
            exact (h2 c hc2).1 (List.mem_cons_self _ _)
          · intro x hx hx3
            rcases List.mem_cons.mp hx with rfl | hx2
            · exact (h3 x hx3).1 (hm2 (List.mem_cons_self _ _))
            · exact (h3 x hx3).1 (h2 x hx2).2

theorem ancLoop_inv :
    ∀ (ps : List (String × String)) (v : List String),
      (∀ x ∈ (ancLoop ps v).2, x ∉ v ∧ x ∈ ps.map Prod.fst) ∧
      (ancLoop ps v).2.Nodup ∧
      (∀ p ∈ ps.map Prod.fst, p ∉ v → p ∈ (ancLoop ps v).2) := by
  intro ps
  induction ps with
  | nil => intro v; simp [ancLoop]
  | cons head rest ih =>
    intro v
    obtain ⟨p, t⟩ := head
    simp only [ancLoop]
    cases hpv : v.contains p with
    | true =>
      have hpmem : p ∈ v := (contains_true_iff v p).mp hpv
      obtain ⟨ha, hb, hc⟩ := ih v
      simp only [hpv, if_true]
      refine ⟨fun x hx => ⟨(ha x hx).1, List.mem_cons_of_mem _ (ha x hx).2⟩, hb, ?_⟩
      intro q hq hqv
      simp only [List.map_cons, List.mem_cons] at hq
      rcases hq with rfl | hq
      · exact absurd hpmem hqv
      · exact hc q hq hqv
    | false =>
      have hpnv : p ∉ v := (contains_false_iff v p).mp hpv
      obtain ⟨ha, hb, hc⟩ := ih (p :: v)
      simp only [hpv, Bool.false_eq_true, if_false]
      refine ⟨?_, ?_, ?_⟩
      · intro x hx
        rcases List.mem_cons.mp hx with rfl | hx2
        · exact ⟨hpnv, List.mem_cons_self _ _⟩
        · obtain ⟨hxv, hxm⟩ := ha x hx2
          exact ⟨fun hv => hxv (List.mem_cons_of_mem _ hv), List.mem_cons_of_mem _ hxm⟩
      · refine List.nodup_cons.mpr ⟨?_, hb⟩
        intro hpk
        exact (ha p hpk).1 (List.mem_cons_self _ _)
      · intro q hq hqv
        simp only [List.map_cons, List.mem_cons] at hq
        rcases hq with rfl | hq
        · exact List.mem_cons_self _ _
        · by_cases hqp : q = p
          · subst hqp; exact List.mem_cons_self _ _
          · exact List.mem_cons_of_mem _ (hc q hq (by simp [List.mem_cons, hqp, hqv]))

theorem bigEnough_default (edges : List Edge) (root : String) :
    unvisitedCount edges [root] * (edges.length + 1) + (childrenOf edges root).length + 1 ≤
      defaultFuel edges := by
  have hU : unvisitedCount edges [root] ≤ edges.length := unvisitedCount_le edges [root]
  have hL : (childrenOf edges root).length ≤ edges.length := length_childrenOf_le edges root
  have h1 : unvisitedCount edges [root] * (edges.length + 1) ≤
      edges.length * (edges.length + 1) := Nat.mul_le_mul_right _ hU
  have h2 : defaultFuel edges = edges.length * (edges.length + 1) + edges.length + 1 := by
    simp only [defaultFuel]; ring
  omega

theorem refDown_stable (data : RefData) (f : Nat) (hf : defaultFuel data.edges ≤ f) :
    refDown data f = refDown data (defaultFuel data.edges) := by
  have hb := bigEnough_default data.edges data.root
  exact walkLoop_stable data.edges (f + defaultFuel data.edges) f (defaultFuel data.edges)
    _ _ _ le_rfl (fun p hp => mem_targets_of_childrenOf hp) (le_trans hb hf) hb

/-- C1: For every derivation-graph payload, fmt_reference terminates and
renders each node at most once.  Termination: for every fuel at least the
default bound, fmt_reference_fuel returns the same string — the recursion of
the Python _walk_down reaches a fixed point within defaultFuel steps even
when the edge list contains cycles back to the root or multiple paths to the
same node.  At-most-once: the list of node ids rendered on the output lines
(root label line, then one id per descendant line, then one id per ancestor
line) has no duplicate. -/
theorem fmt_reference_terminates_each_node_once (data : RefData) (f : Nat)
    (hf : defaultFuel data.edges ≤ f) :
    fmt_reference_fuel f data = fmt_reference data ∧ (fmt_reference_ids data).Nodup := by
  constructor
  · have hw : _walk_down data.edges f data.root 1 [data.root] =
        _walk_down data.edges (defaultFuel data.edges) data.root 1 [data.root] :=
      refDown_stable data f hf
    simp only [fmt_reference, fmt_reference_fuel, hw]
  · obtain ⟨hI, hnd⟩ := walkLoop_ids_inv data.edges (defaultFuel data.edges)
      (childrenOf data.edges data.root) 1 [data.root]
    obtain ⟨haI, hand, _⟩ := ancLoop_inv (parentsOf data.edges data.root) (refVisitedDown data)
    have hroot : data.root ∈ refVisitedDown data :=
      walkLoop_visited_subset data.edges (defaultFuel data.edges) _ _ _ (List.mem_cons_self _ _)
    simp only [fmt_reference_ids, refAncestorIds, refVisitedDown, refDown, _walk_down] at *
    simp only [List.nodup_cons, List.mem_append, List.nodup_append]
    refine ⟨⟨?_, hnd⟩, hand, ?_⟩
    · intro hx
      exact (hI _ hx).1 (List.mem_cons_self _ _)
    · intro x hx hxa
      rcases List.mem_cons.mp hx with rfl | hx2
      · exact (haI _ hxa).1 hroot
      · exact (haI _ hxa).1 ((hI _ hx2).2)

/-- Witness for C1 on a graph with a cycle back to the root (m1→m2, m2→m1):
the default fuel is at most 14, rendering with fuel 14 equals the rendering,
and the rendered ids are duplicate-free. -/
theorem fmt_reference_terminates_each_node_once_witness :
    defaultFuel refCycleExample.edges ≤ 14 ∧
      (fmt_reference_fuel 14 refCycleExample = fmt_reference refCycleExample ∧
        (fmt_reference_ids refCycleExample).Nodup) :=
  ⟨by decide, fmt_reference_terminates_each_node_once refCycleExample 14 (by decide)⟩

/-- C2: fmt_reference renders ancestors exactly one hop.  Every id rendered
by the ancestor loop is a direct parent of the root (so ancestors beyond the
immediate parent are never rendered), every direct parent not already
visited by the descendant walk is rendered, and on the concrete scenario
(nodes m1, m2, m3; edges m1→m2 and m3→m1; root m1) the output is exactly
the root label, one indented ">" line for m2 and one "<" line for m3. -/
theorem fmt_reference_ancestors_one_hop :
    (∀ (data : RefData) (x : String), x ∈ refAncestorIds data →
      x ∈ (parentsOf data.edges data.root).map Prod.fst) ∧
    (∀ (data : RefData) (p : String), p ∈ (parentsOf data.edges data.root).map Prod.fst →
      p ∉ refVisitedDown data → p ∈ refAncestorIds data) ∧
    fmt_reference refExample = "[m1] alpha\n  > [m2] beta\n  < [m3] gamma" := by
  refine ⟨?_, ?_, by decide⟩
  · intro data x hx
    exact ((ancLoop_inv (parentsOf data.edges data.root) (refVisitedDown data)).1 x hx).2
  · intro data p hp hpv
    exact (ancLoop_inv (parentsOf data.edges data.root) (refVisitedDown data)).2.2 p hp hpv

/-- Witness for C2: on the concrete scenario, m3 is rendered by the ancestor
loop and is indeed a direct parent of the root. -/
theorem fmt_reference_ancestors_one_hop_witness :
    "m3" ∈ refAncestorIds refExample ∧
      "m3" ∈ (parentsOf refExample.edges refExample.root).map Prod.fst :=
  ⟨by decide, fmt_reference_ancestors_one_hop.1 refExample "m3" (by decide)⟩

/-- C3: if the notification poll raises any error, fetch_and_format returns
none and the primary tool result passes through _with_notifications
unchanged; if the poll succeeds with no notifications, the result also
passes through unchanged. -/
theorem notifications_error_swallowed :
    (∀ (result e : String), fetch_and_format (Except.error e) = none ∧
      _with_notifications result (Except.error e) = result) ∧
    (∀ (result : String) (d : NotifData), d.notifications = [] →
      fetch_and_format (Except.ok d) = none ∧
      _with_notifications result (Except.ok d) = result) := by
  refine ⟨fun result e => ⟨rfl, rfl⟩, fun result d h => ?_⟩
  constructor
  · simp [fetch_and_format, h]
  · simp [_with_notifications, fetch_and_format, h]

/-- Witness for C3: an empty notification payload leaves the rendered find
result unchanged. -/
theorem notifications_error_swallowed_witness :
    fetch_and_format (Except.ok ⟨[]⟩) = none ∧
      _with_notifications "found it" (Except.ok ⟨[]⟩) = "found it" :=
  notifications_error_swallowed.2 "found it" ⟨[]⟩ rfl

/-- C4: _pct treats a value at most 1 as a fraction (scaled by 100 before
rounding, where rounding is Python's round-half-to-even) and a value above 1
as an already-computed percentage that is only rounded; in particular 0.5
yields 50 and 50 yields 50. -/
theorem pct_dual_convention :
    (∀ v : ℚ, (v ≤ 1 → _pct v = pyround (v * 100)) ∧ (1 < v → _pct v = pyround v)) ∧
    _pct (1/2) = 50 ∧ _pct 50 = 50 := by
  refine ⟨fun v => ⟨fun h => by simp [_pct, h], fun h => by simp [_pct, not_le.mpr h]⟩,
    by norm_num [_pct, pyround], by norm_num [_pct, pyround]⟩

/-- Witness for C4: 1/2 is at most 1 and _pct scales it by 100 before
rounding. -/
theorem pct_dual_convention_witness :
    ((1 : ℚ)/2) ≤ 1 ∧ _pct (1/2) = pyround ((1/2 : ℚ) * 100) :=
  ⟨by norm_num, (pct_dual_convention.1 (1/2)).1 (by norm_num)⟩

/-- C5: a timestamp below 10^12 is interpreted as seconds and scaled to
milliseconds, one at least 10^12 as already-milliseconds; 1700000000
(seconds) and 1700000000000 (milliseconds) render to the identical UTC
calendar date 2023-11-14, both through _resolves_by and through _ts. -/
theorem timestamp_magnitude_heuristic :
    (∀ ts : ℤ, (ts < 10 ^ 12 → toMillis ts = ts * 1000) ∧
      (10 ^ 12 ≤ ts → toMillis ts = ts)) ∧
    _resolves_by (some 1700000000) = "2023-11-14" ∧
    _resolves_by (some 1700000000000) = "2023-11-14" ∧
    _ts (some 1700000000) = "11-14 22:13" ∧
    _ts (some 1700000000000) = "11-14 22:13" := by
  refine ⟨fun ts => ⟨fun h => by unfold toMillis; rw [if_pos h],
    fun h => by unfold toMillis; rw [if_neg (not_lt.mpr h)]⟩,
    by decide, by decide, by decide, by decide⟩

/-- Witness for C5: 1700000000 is below 10^12 and is scaled by 1000. -/
theorem timestamp_magnitude_heuristic_witness :
    (1700000000 : ℤ) < 10 ^ 12 ∧ toMillis 1700000000 = 1700000000 * 1000 :=
  ⟨by decide, (timestamp_magnitude_heuristic.1 1700000000).1 (by decide)⟩

/-- C6: the request body built by _body contains exactly the keys whose
argument values are not None, each mapped to that value — a pair is in the
body precisely when the keyword argument list holds it with a non-None
value. -/
theorem body_drops_unset_params (kwargs : List (String × Option JValue)) (k : String)
    (v : JValue) : (k, v) ∈ _body kwargs ↔ (k, some v) ∈ kwargs := by
  induction kwargs with
  | nil => simp [_body]
  | cons kv rest ih =>
    obtain ⟨k0, v0⟩ := kv
    cases v0 with
    | none =>
      have hstep : _body ((k0, none) :: rest) = _body rest := rfl
      rw [hstep, ih]
      simp [List.mem_cons]
    | some w =>
      have hstep : _body ((k0, some w) :: rest) = (k0, w) :: _body rest := rfl
      rw [hstep]
      simp [List.mem_cons, ih, Prod.ext_iff]

/-- C7: each of the three destructive tools (queue_purge, bulk_retract,
condition_vectors_cleanup) declares dry_run with schema default true, and
the body each builds always carries the caller's dry_run value verbatim
under the "dry_run" key. -/
theorem destructive_tools_dry_run_default_true :
    queue_purge_dry_run_default = true ∧
    bulk_retract_dry_run_default = true ∧
    condition_vectors_cleanup_dry_run_default = true ∧
    (∀ (mode : String) (sid : Option String) (oth : ℚ) (dr : Bool),
      (queue_purge_body mode sid oth dr).lookup "dry_run" = some (JValue.bool dr)) ∧
    (∀ (mid r : String) (c dr : Bool),
      (bulk_retract_body mid r c dr).lookup "dry_run" = some (JValue.bool dr)) ∧
    (∀ (mid : Option String) (bs : ℕ) (dr : Bool),
      (condition_vectors_cleanup_body mid bs dr).lookup "dry_run" = some (JValue.bool dr)) := by
  refine ⟨rfl, rfl, rfl, ?_, ?_, ?_⟩
  · intro mode sid oth dr
    cases sid <;> rfl
  · intro mid r c dr
    rfl
  · intro mid bs dr
    cases mid <;> rfl

/-- C8: renderers degrade gracefully on partial payloads: a node id
referenced by an edge but absent from the node list is labelled with empty
content rather than failing, and fmt_recall of a payload with every key
missing still renders, substituting "?" for the id and neutral defaults for
everything else. -/
theorem renderers_degrade_gracefully :
    (∀ (nodes : List GNode) (nid : String), (∀ n ∈ nodes, n.id ≠ nid) →
      _label nodes nid = "[" ++ nid ++ "] ") ∧
    fmt_recall emptyRecallData = "[?] \nstandalone | active | untested" := by
  constructor
  · intro nodes nid h
    have hf : nodes.filter (fun n => n.id == nid) = [] := by
      rw [List.filter_eq_nil_iff]
      intro n hn
      simpa using h n hn
    simp [_label, nodeLookup, hf]
  · decide

/-- Witness for C8: an id absent from the node list gets an empty-content
label. -/
theorem renderers_degrade_gracefully_witness : _label [⟨"a", "x"⟩] "zzz" = "[zzz] " :=
  renderers_degrade_gracefully.1 [⟨"a", "x"⟩] "zzz" (by decide)

/-- C9: for every find payload whose results list is empty, fmt_find renders
exactly the negative sentence with the query text interpolated and no
trailing structure. -/
theorem fmt_find_empty_results (data : FindData) (h : data.results = []) :
    fmt_find data = "No results for \"" ++ data.query ++ "\"" := by
  simp [fmt_find, h]

/-- Witness for C9: the empty payload with query "foo" renders exactly
the expected sentence. -/
theorem fmt_find_empty_results_witness : fmt_find ⟨[], "foo"⟩ = "No results for \"foo\"" := by
  rw [fmt_find_empty_results ⟨[], "foo"⟩ rfl]
  decide

/-- C10: the resolve body carries the "force" key exactly when the caller
passes force=True (with value true); with force=False the key is absent
from the body altogether, indistinguishable from omitting the parameter. -/
theorem resolve_force_included_iff_true (mid outcome reason : String)
    (rb : Option String) (force : Bool) :
    ((resolve_body mid outcome reason rb force).lookup "force" =
      if force then some (JValue.bool true) else none) ∧
    (force = false → "force" ∉ (resolve_body mid outcome reason rb force).map Prod.fst) := by
  constructor
  · cases force <;> cases rb <;> rfl
  · rintro rfl
    cases rb <;> simp [resolve_body, _body]

/-- Witness for C10: with force=True the body carries force=true; with
force=False the key is absent. -/
theorem resolve_force_included_iff_true_witness :
    ((resolve_body "m7" "correct" "verified" none true).lookup "force" =
      some (JValue.bool true)) ∧
    ("force" ∉ (resolve_body "m7" "correct" "verified" none false).map Prod.fst) :=
  ⟨(resolve_force_included_iff_true "m7" "correct" "verified" none true).1,
   (resolve_force_included_iff_true "m7" "correct" "verified" none false).2 rfl⟩
